/-
  Verification of the ghostow/lnkit symlink reconciliation engine.

  This file gives a shallow embedding of the reconciliation core of the
  repository (the per-entry classifier `determineTargetState`, the source
  walker, and the `link` / `unlink` / `stats` engines) together with the
  filesystem primitives of `fileutil/fileutil.go`, and proves or refutes the
  frozen specification claims about them.

  Modelling conventions:
  * A filesystem path is a list of already-clean components (no "", "." or
    ".." components); absolute paths carry no leading separator.  On such
    paths `filepath.Join` is list append, `filepath.Clean` and `filepath.Abs`
    of an absolute path are the identity, and `filepath.Abs` of a relative
    path prepends the process working directory, exactly as in Go.
  * The filesystem is a flat association list from paths to objects
    (regular file with a content digest, directory, or symlink holding a raw
    link value).  `os.Lstat`/existence is association-list lookup; the
    scenarios used in the theorems never place entries below a symlink, so
    no intermediate-symlink resolution is needed for lookups.
  * File contents are abstracted to a `Nat` digest: `fileutil.HashFile`
    returns the digest of a regular file and errors on directories or
    missing paths (opening a directory succeeds in Go but reading it fails),
    and `fileutil.CompareFileHashes` compares digests, with call sites
    discarding the error exactly as the Go call sites do (`same, _ := ...`).
  * Glob patterns cover the `*`, `?` and literal syntax of
    `path/filepath.Match`; character classes (which can make `Match` return
    an error) are not modelled, so `MatchesPatterns` never errors here.
  * Interactive confirmation (`stringutil.AskForConfirmation`) is an oracle
    `ans : Nat → Bool` consumed at an incrementing prompt counter carried in
    the engine state; the counter also records how many confirmations were
    requested.
-/
import Mathlib

namespace Ghostow

/-- An absolute, clean filesystem path, as a list of name components. -/
abbrev Path := List String

/-- A raw symlink value as stored by `os.Symlink`: possibly relative
(`isAbs = false`), with clean components. -/
structure LinkVal where
  isAbs : Bool
  comps : List String
deriving DecidableEq

/-- A filesystem object: regular file (content digest), directory, or
symlink carrying its raw link value. -/
inductive Obj where
  | file (digest : Nat)
  | dir
  | symlink (v : LinkVal)
deriving DecidableEq

/-- The filesystem: a flat association list from paths to objects. -/
abbrev FS := List (Path × Obj)

/-- Association-list lookup, i.e. `os.Lstat` on the flat filesystem. -/
def fsLookup : FS → Path → Option Obj
  | [], _ => none
  | e :: es, p => if e.1 = p then some e.2 else fsLookup es p

/-- `os.Remove` of a single entry (call sites only apply it to symlinks). -/
def fsRemoveOne : FS → Path → FS
  | [], _ => []
  | e :: es, p => if e.1 = p then fsRemoveOne es p else e :: fsRemoveOne es p

/-- `k` lies at or below `p` (used by `os.RemoveAll`). -/
def underEq (p k : Path) : Bool := decide (k.take p.length = p)

/-- `os.RemoveAll`: remove the entry at `p` and its whole subtree. -/
def fsRemoveAll : FS → Path → FS
  | [], _ => []
  | e :: es, p => if underEq p e.1 then fsRemoveAll es p else e :: fsRemoveAll es p

/-- `filepath.Abs` of a raw link value: absolute values are already clean,
relative ones are joined onto the base directory (`cwd` for `filepath.Abs`,
the symlink's directory for kernel-side resolution). -/
def resolveAgainst (base : Path) (v : LinkVal) : Path :=
  if v.isAbs then v.comps else base ++ v.comps

/-- `filepath.Rel base targ` for two absolute clean paths, as components:
strip the common prefix, then one ".." per remaining base component. -/
def relComps : Path → Path → List String
  | [], targ => targ
  | b :: bs, [] => List.replicate (b :: bs).length ".."
  | b :: bs, a :: ys => if b = a then relComps bs ys
      else List.replicate (b :: bs).length ".." ++ (a :: ys)

/-- `strings.HasPrefix` worker over characters (pattern first). -/
def hasPrefixAux : List Char → List Char → Bool
  | [], _ => true
  | _ :: _, [] => false
  | c :: cs, d :: ds => c == d && hasPrefixAux cs ds

/-- `strings.HasPrefix s pre`. -/
def strHasPre (s pre : String) : Bool := hasPrefixAux pre.data s.data

/-- `fileutil.IsChildPath a b` (is `a` a child of `b`): compute
`filepath.Rel b a` and answer false iff it is "." or begins with "..". -/
def IsChildPath (a b : Path) : Bool :=
  match relComps b a with
  | [] => false
  | c :: _ => !(strHasPre c "..")

/-- `fileutil.PathExists` (`os.Lstat` succeeds). -/
def PathExists (w : FS) (p : Path) : Bool := (fsLookup w p).isSome

/-- `fileutil.IsSymlink` (`os.Lstat` mode has the symlink bit). -/
def IsSymlink (w : FS) (p : Path) : Bool :=
  match fsLookup w p with
  | some (Obj.symlink _) => true
  | _ => false

/-- `os.Readlink`. -/
def readlink (w : FS) (p : Path) : Option LinkVal :=
  match fsLookup w p with
  | some (Obj.symlink v) => some v
  | _ => none

/-- Whether the entry at `p` is a directory, per `os.Lstat` (no symlink
following); this is the `info.IsDir()` the walker sees. -/
def isDirEntry (w : FS) (p : Path) : Bool :=
  match fsLookup w p with
  | some Obj.dir => true
  | _ => false

/-- `os.Stat`-style directory test with symlink following, bounded by the
number of filesystem entries (a longer chain necessarily loops). -/
def isDirFuel (w : FS) : Nat → Path → Bool
  | 0, _ => false
  | fuel + 1, p =>
    match fsLookup w p with
    | some Obj.dir => true
    | some (Obj.symlink v) => isDirFuel w fuel (resolveAgainst p.dropLast v)
    | _ => false

/-- `fileutil.IsDir` (`os.Stat(path).IsDir()`, following symlinks). -/
def IsDir (w : FS) (p : Path) : Bool := isDirFuel w (w.length + 1) p

/-- `fileutil.HashFile`: digest of a regular file, error (`none`) otherwise.
Call sites only hash paths that are not symlinks (the walker skips source
symlinks and the content branch of the classifier runs on non-symlinks). -/
def HashFile (w : FS) (p : Path) : Option Nat :=
  match fsLookup w p with
  | some (Obj.file d) => some d
  | _ => none

/-- `fileutil.CompareFileHashes` with the error discarded as at every call
site (`same, _ :=`): an error yields `false`. -/
def CompareFileHashes (w : FS) (a b : Path) : Bool :=
  match HashFile w a, HashFile w b with
  | some x, some y => decide (x = y)
  | _, _ => false

/-- Worker for `matchGlob`: every recursive call shrinks the combined
length of pattern and string, so the fuel passed by `matchGlob` is exact. -/
def matchGlobF : Nat → List Char → List Char → Bool
  | 0, _, _ => false
  | fuel + 1, ps0, s0 =>
    match ps0, s0 with
    | [], [] => true
    | [], _ :: _ => false
    | '*' :: ps, s =>
        matchGlobF fuel ps s ||
          (match s with
            | [] => false
            | _ :: s2 => matchGlobF fuel ('*' :: ps) s2)
    | '?' :: ps, _ :: s2 => matchGlobF fuel ps s2
    | '?' :: _, [] => false
    | c :: ps, d :: s2 => c == d && matchGlobF fuel ps s2
    | _ :: _, [] => false

/-- `filepath.Match` restricted to `*`, `?` and literal characters. -/
def matchGlob (ps s : List Char) : Bool :=
  matchGlobF (ps.length + s.length + 1) ps s

/-- `fileutil.MatchesPatterns`: does `value` match any pattern. -/
def MatchesPatterns (value : String) (patterns : List String) : Bool :=
  patterns.any (fun pat => matchGlob pat.data value.data)

/-- `filepath.Base` of a nonempty absolute path. -/
def baseName (p : Path) : String :=
  match p.getLast? with
  | some s => s
  | none => "/"

/-- `os.MkdirAll` worker: walk the components, requiring every existing
component to be a directory (via `os.Stat`) and creating missing ones;
`none` is the error case (an existing non-directory in the chain), which in
a well-formed filesystem happens before anything is created. -/
def mkdirAllAux : FS → Path → List String → Option FS
  | w, _, [] => some w
  | w, done, n :: rest =>
    let q := done ++ [n]
    match fsLookup w q with
    | some Obj.dir => mkdirAllAux w q rest
    | some (Obj.symlink _) => if IsDir w q then mkdirAllAux w q rest else none
    | some (Obj.file _) => none
    | none => mkdirAllAux ((q, Obj.dir) :: w) q rest

/-- `os.MkdirAll`. -/
def mkdirAll (w : FS) (p : Path) : Option FS := mkdirAllAux w [] p

/-- `fileutil.CreateSymlink linkPath targetPath createDirs`: optionally
create the parent directories of `linkPath`, error if anything already
exists at `linkPath`, else create the symlink at `linkPath` pointing to the
(absolute) `targetPath`.  Returns the new filesystem and a success flag. -/
def CreateSymlink (w : FS) (linkPath targetPath : Path) (createDirs : Bool) :
    FS × Bool :=
  match (if createDirs then mkdirAll w linkPath.dropLast else some w) with
  | none => (w, false)
  | some w1 =>
    match fsLookup w1 linkPath with
    | some _ => (w1, false)
    | none => ((linkPath, Obj.symlink (LinkVal.mk true targetPath)) :: w1, true)

/-- `fileutil.RemoveSymlink`: delete the entry at `p` if it is a symlink;
missing or non-symlink paths are left alone (error/no-op). -/
def RemoveSymlink (w : FS) (p : Path) : FS :=
  match fsLookup w p with
  | some (Obj.symlink _) => fsRemoveOne w p
  | _ => w

/-- `fileutil.IsSymlinkPointingTo symlink target`: read the link and compare
`filepath.Abs(linkValue)` with `filepath.Abs(target)`; `target` is always
passed absolute, so only the link value needs resolving against `cwd`. -/
def IsSymlinkPointingTo (w : FS) (cwd : Path) (linkP target : Path) : Bool :=
  match readlink w linkP with
  | some v => decide (resolveAgainst cwd v = target)
  | none => false

/-- The seven-valued per-entry relationship state (`TargetState` in
`ghostow.go`, identical list in the lnkit iteration). -/
inductive TargetState where
  | Ignore
  | AlreadyLinked
  | Missing
  | MislinkedInternal
  | MislinkedExternal
  | ExistsIdentical
  | ExistsModified
deriving DecidableEq

/-- `determineTargetState` (`ghostow.go`, also reached via
`fileutil.GetLinkState` in the lnkit iteration, with identical semantics):
classify the relationship between `sourceDir ++ sourceRel` and
`targetDir ++ sourceRel`. -/
def determineTargetState (w : FS) (cwd srcDir tgtDir : Path) (sourceRel : Path)
    (ignoreList : List String) : TargetState :=
  let targetAbs := tgtDir ++ sourceRel
  let sourceAbs := srcDir ++ sourceRel
  if MatchesPatterns (baseName sourceAbs) ignoreList then TargetState.Ignore
  else if !(PathExists w targetAbs) then TargetState.Missing
  else if IsSymlink w targetAbs then
    if IsSymlinkPointingTo w cwd targetAbs sourceAbs then TargetState.AlreadyLinked
    else
      match readlink w targetAbs with
      | some v =>
          if IsChildPath (resolveAgainst cwd v) srcDir then TargetState.MislinkedInternal
          else TargetState.MislinkedExternal
      | none => TargetState.MislinkedExternal
  else if CompareFileHashes w sourceAbs targetAbs then TargetState.ExistsIdentical
  else TargetState.ExistsModified

/-- Engine state threaded through a run: the filesystem plus the number of
interactive confirmations requested so far (which also indexes the answer
oracle, mirroring sequential reads from stdin). -/
structure EngineSt where
  w : FS
  prompts : Nat
deriving DecidableEq

/-- `stringutil.AskForConfirmation`: consume one oracle answer. -/
def askConfirm (ans : Nat → Bool) (st : EngineSt) : Bool × EngineSt :=
  (ans st.prompts, { st with prompts := st.prompts + 1 })

/-- Extract the immediate child name when `k` is directly below `d`. -/
def childNameOf (d : Path) (k : Path) : Option String :=
  if k.length = d.length + 1 ∧ k.take d.length = d then k.getLast? else none

/-- The names of the direct children of directory `d` present in `w`. -/
def childNames (w : FS) (d : Path) : List String :=
  w.filterMap (fun e => childNameOf d e.1)

/-- Lexicographic name order worker (character order, which agrees with
the byte order `sort.Strings` uses on the ASCII names modelled here). -/
def strLtAux : List Char → List Char → Bool
  | [], [] => false
  | [], _ :: _ => true
  | _ :: _, [] => false
  | a :: s1, b :: s2 =>
      if a.toNat < b.toNat then true
      else if b.toNat < a.toNat then false
      else strLtAux s1 s2

/-- `s` sorts strictly before `t`. -/
def strLt (s t : String) : Bool := strLtAux s.data t.data

/-- Insert into a name list sorted ascending (byte order, as
`sort.Strings` inside `filepath.Walk`). -/
def insertName (s : String) : List String → List String
  | [] => [s]
  | t :: ts => if strLt t s then t :: insertName s ts else s :: t :: ts

/-- Sort child names as `filepath.Walk` enumerates them. -/
def sortNames (l : List String) : List String := l.foldr insertName []

namespace Main

/-- The entries `walkSourceDir` (`ghostow.go`) hands to its handler: the
sorted top-level children of the source root, minus source-side symlinks.
Every directory is `SkipDir`-ed after handling, so the walk never goes
deeper than one level and the root listing is read once up front. -/
def walkNames (w : FS) (srcDir : Path) : List String :=
  (sortNames (childNames w srcDir)).filter (fun n => !(IsSymlink w (srcDir ++ [n])))

/-- One handler invocation of `createSymlinks` (`ghostow.go`): note that
`symlink` calls `fileutil.CreateSymlink(sourceAbs, targetAbs, createDirs)`,
whose first parameter is the path the link is created at, and that the
`MislinkedExternal` / `ExistsModified` arms delete the target without a
subsequent `symlink` call. -/
def createStep (cwd srcDir tgtDir : Path) (force createDirs : Bool)
    (ignoreList : List String) (ans : Nat → Bool) (st : EngineSt) (n : String) :
    EngineSt :=
  let sourceRel : Path := [n]
  let targetAbs := tgtDir ++ sourceRel
  let sourceAbs := srcDir ++ sourceRel
  let ts := determineTargetState st.w cwd srcDir tgtDir sourceRel ignoreList
  if ts = TargetState.Ignore then st
  else
    match ts with
    | TargetState.Ignore | TargetState.AlreadyLinked => st
    | TargetState.Missing =>
        { st with w := (CreateSymlink st.w sourceAbs targetAbs createDirs).1 }
    | TargetState.MislinkedInternal =>
        let w1 := fsRemoveAll st.w targetAbs
        { st with w := (CreateSymlink w1 sourceAbs targetAbs createDirs).1 }
    | TargetState.MislinkedExternal =>
        if force then { st with w := fsRemoveAll st.w targetAbs }
        else
          let st1 := (askConfirm ans st).2
          let r2 := askConfirm ans st1
          if r2.1 then { r2.2 with w := fsRemoveAll r2.2.w targetAbs } else r2.2
    | TargetState.ExistsIdentical =>
        let w1 := fsRemoveAll st.w targetAbs
        { st with w := (CreateSymlink w1 sourceAbs targetAbs createDirs).1 }
    | TargetState.ExistsModified =>
        if force then { st with w := fsRemoveAll st.w targetAbs }
        else
          let st1 := (askConfirm ans st).2
          let r2 := askConfirm ans st1
          if r2.1 then { r2.2 with w := fsRemoveAll r2.2.w targetAbs } else r2.2

/-- `createSymlinks` (`ghostow.go`): fold the handler over the walked
entries.  The `confirm` option is accepted but never consulted by this
handler (prompting happens whenever `force` is off). -/
def createSymlinks (cwd srcDir tgtDir : Path) (force createDirs confirm : Bool)
    (ignoreList : List String) (ans : Nat → Bool) (w : FS) : EngineSt :=
  (walkNames w srcDir).foldl (createStep cwd srcDir tgtDir force createDirs ignoreList ans)
    (EngineSt.mk w 0)

/-- One handler invocation of `removeSymlinks` (`ghostow.go`): symlink
states are removed, gated on the `confirm` flag; the `MislinkedExternal` arm
is verbatim the `AlreadyLinked`/`MislinkedInternal` arm. -/
def removeStep (cwd srcDir tgtDir : Path) (confirm : Bool)
    (ignoreList : List String) (ans : Nat → Bool) (st : EngineSt) (n : String) :
    EngineSt :=
  let targetAbs := tgtDir ++ [n]
  match determineTargetState st.w cwd srcDir tgtDir [n] ignoreList with
  | TargetState.Ignore | TargetState.Missing
  | TargetState.ExistsIdentical | TargetState.ExistsModified => st
  | TargetState.AlreadyLinked | TargetState.MislinkedInternal =>
      if confirm then
        let r := askConfirm ans st
        if !r.1 then r.2 else { r.2 with w := fsRemoveOne r.2.w targetAbs }
      else { st with w := fsRemoveOne st.w targetAbs }
  | TargetState.MislinkedExternal =>
      if confirm then
        let r := askConfirm ans st
        if !r.1 then r.2 else { r.2 with w := fsRemoveOne r.2.w targetAbs }
      else { st with w := fsRemoveOne st.w targetAbs }

/-- `removeSymlinks` (`ghostow.go`). -/
def removeSymlinks (cwd srcDir tgtDir : Path) (confirm : Bool)
    (ignoreList : List String) (ans : Nat → Bool) (w : FS) : EngineSt :=
  (walkNames w srcDir).foldl (removeStep cwd srcDir tgtDir confirm ignoreList ans)
    (EngineSt.mk w 0)

/-- The `Stats` counters (`ghostow.go`). -/
structure Stats where
  linkedFiles : Nat
  linkedDirs : Nat
  unlinked : Nat
  sameContents : Nat
  differentContents : Nat
  incorrectSymlink : Nat
  noTarget : Nat
  ignored : Nat
deriving DecidableEq

def Stats.zero : Stats := ⟨0, 0, 0, 0, 0, 0, 0, 0⟩

/-- One handler invocation of `gatherStats` (`ghostow.go`): note the
`AlreadyLinked` arm increments both `LinkedDirs` and `LinkedFiles`. -/
def statsStep (cwd srcDir tgtDir : Path) (ignoreList : List String) (w : FS)
    (s : Stats) (n : String) : Stats :=
  match determineTargetState w cwd srcDir tgtDir [n] ignoreList with
  | TargetState.Ignore => { s with ignored := s.ignored + 1 }
  | TargetState.Missing =>
      { s with noTarget := s.noTarget + 1, unlinked := s.unlinked + 1 }
  | TargetState.AlreadyLinked =>
      { s with linkedDirs := s.linkedDirs + 1, linkedFiles := s.linkedFiles + 1 }
  | TargetState.MislinkedInternal =>
      { s with incorrectSymlink := s.incorrectSymlink + 1 }
  | TargetState.MislinkedExternal =>
      { s with incorrectSymlink := s.incorrectSymlink + 1 }
  | TargetState.ExistsIdentical => { s with sameContents := s.sameContents + 1 }
  | TargetState.ExistsModified =>
      { s with differentContents := s.differentContents + 1 }

/-- `gatherStats` (`ghostow.go`): pure fold, the filesystem is never
mutated. -/
def gatherStats (cwd srcDir tgtDir : Path) (ignoreList : List String) (w : FS) :
    Stats :=
  (walkNames w srcDir).foldl (statsStep cwd srcDir tgtDir ignoreList w) Stats.zero

/-- The root validation sequence of `main` (`ghostow.go`): both roots must
be (Stat-)directories, neither may be a symlink, and the target must not be
a child of the source; there is no equality check. -/
def validateRoots (w : FS) (srcDir tgtDir : Path) : Bool :=
  IsDir w srcDir && IsDir w tgtDir && !(IsSymlink w srcDir) &&
    !(IsSymlink w tgtDir) && !(IsChildPath tgtDir srcDir)

inductive Cmd where
  | link
  | unlink
  | stats

/-- `main` (`ghostow.go`) after config loading: validation, then command
dispatch (`stats` never mutates, so it returns the filesystem unchanged). -/
def runMain (cmd : Cmd) (w : FS) (cwd srcDir tgtDir : Path)
    (force createDirs confirm : Bool) (ignoreList : List String)
    (ans : Nat → Bool) : FS :=
  if validateRoots w srcDir tgtDir then
    match cmd with
    | Cmd.link =>
        (createSymlinks cwd srcDir tgtDir force createDirs confirm ignoreList ans w).w
    | Cmd.unlink => (removeSymlinks cwd srcDir tgtDir confirm ignoreList ans w).w
    | Cmd.stats => w
  else w

end Main

namespace Lnkit

/-- A handler as passed to `walkSourceRec` (part_000 of the lnkit
iteration): receives the walked source path, the target path and the state,
and returns whether to recurse plus the updated engine state. -/
abbrev Handler := Path → Path → TargetState → EngineSt → Bool × EngineSt

/-- `walkSourceRec` + `filepath.Walk` (part_000): depth-first walk of the
source tree.  The root is handled (skipped) first; source symlinks are
skipped; every other node is classified and handed to the handler, which is
called with the walked ABSOLUTE path as its first argument (the `handler`
type names this parameter `sourceAbs`); a directory is descended into only
when the handler asked to recurse and the state is not `Ignore`.  Each
directory listing is read when the directory is entered.  `fuel` bounds the
recursion depth (any value exceeding the tree depth is exact). -/
def walkVisit (cwd srcDir tgtDir : Path) (ignoreList : List String)
    (hstep : Handler) : Nat → EngineSt → Path → EngineSt
  | 0 => fun st _ => st
  | fuel + 1 => fun st p =>
    let go := walkVisit cwd srcDir tgtDir ignoreList hstep fuel
    if p = srcDir then
      (sortNames (childNames st.w p)).foldl (fun acc n => go acc (p ++ [n])) st
    else if IsSymlink st.w p then st
    else
      let pIsDir := isDirEntry st.w p
      let rel := p.drop srcDir.length
      let ts := determineTargetState st.w cwd srcDir tgtDir rel ignoreList
      let r := hstep p (tgtDir ++ rel) ts st
      if pIsDir = true ∧ r.1 = true ∧ ts ≠ TargetState.Ignore then
        (sortNames (childNames r.2.w p)).foldl (fun acc n => go acc (p ++ [n])) r.2
      else r.2

/-- The handler of `createSymlinks` (part_000, lines 476-573).  Two
faithfully reproduced quirks of the source: the first parameter is named
`sourceRel` but receives the walker's absolute path, which the body joins
onto `sourceDir` again; and `link` calls
`fileutil.CreateSymlink(sourceAbs, targetAbs, createDirs)`, whose first
parameter is where the link is created.  `PathsEqual(sourceAbs, sourceDir)`
resolves to false for every handled entry (the joined path never equals the
root), matching the source where the error of resolving a nonexistent path
is discarded. -/
def createHandler (cwd srcDir tgtDir : Path)
    (force createDirs confirm recursive fold : Bool) (ans : Nat → Bool)
    (sourceRel targetAbs : Path) (ts : TargetState) (st : EngineSt) :
    Bool × EngineSt :=
  let sourceAbs := srcDir ++ sourceRel
  let isRoot := decide (sourceAbs = srcDir)
  let shouldRec := recursive && (isRoot || !fold)
  if ts = TargetState.Ignore then (false, st)
  else if IsDir st.w sourceAbs && recursive && !fold then (shouldRec, st)
  else
    match ts with
    | TargetState.Ignore | TargetState.AlreadyLinked => (shouldRec, st)
    | TargetState.Missing =>
        (shouldRec, { st with w := (CreateSymlink st.w sourceAbs targetAbs createDirs).1 })
    | TargetState.MislinkedInternal =>
        let w1 := fsRemoveAll st.w targetAbs
        (shouldRec, { st with w := (CreateSymlink w1 sourceAbs targetAbs createDirs).1 })
    | TargetState.MislinkedExternal =>
        if force then (shouldRec, { st with w := fsRemoveAll st.w targetAbs })
        else
          let st1 := (askConfirm ans st).2
          let r2 := askConfirm ans st1
          if r2.1 then (shouldRec, { r2.2 with w := fsRemoveAll r2.2.w targetAbs })
          else (shouldRec, r2.2)
    | TargetState.ExistsIdentical =>
        let w1 := fsRemoveAll st.w targetAbs
        (shouldRec, { st with w := (CreateSymlink w1 sourceAbs targetAbs createDirs).1 })
    | TargetState.ExistsModified =>
        if force then (shouldRec, { st with w := fsRemoveAll st.w targetAbs })
        else
          let st1 := (askConfirm ans st).2
          let r2 := askConfirm ans st1
          if r2.1 then (shouldRec, { r2.2 with w := fsRemoveAll r2.2.w targetAbs })
          else (shouldRec, r2.2)

/-- `createSymlinks` (part_000): drive the recursive walker with the
handler above, starting from the source root. -/
def createSymlinks (cwd srcDir tgtDir : Path)
    (force createDirs confirm recursive fold : Bool) (ignoreList : List String)
    (ans : Nat → Bool) (fuel : Nat) (w : FS) : EngineSt :=
  walkVisit cwd srcDir tgtDir ignoreList
    (createHandler cwd srcDir tgtDir force createDirs confirm recursive fold ans)
    fuel (EngineSt.mk w 0) srcDir

/-- The handler of `removeSymlinks` (part_000, lines 597-620):
`AlreadyLinked`/`MislinkedInternal` are unlinked unconditionally, while the
`MislinkedExternal` removal is gated on the `confirm` flag. -/
def removeHandler (cwd srcDir tgtDir : Path) (confirm : Bool) (ans : Nat → Bool)
    (sourceRel targetAbs : Path) (ts : TargetState) (st : EngineSt) :
    Bool × EngineSt :=
  match ts with
  | TargetState.Ignore | TargetState.Missing
  | TargetState.ExistsIdentical | TargetState.ExistsModified => (false, st)
  | TargetState.AlreadyLinked | TargetState.MislinkedInternal =>
      (false, { st with w := RemoveSymlink st.w targetAbs })
  | TargetState.MislinkedExternal =>
      if confirm then
        let r := askConfirm ans st
        if !r.1 then (false, r.2)
        else (false, { r.2 with w := RemoveSymlink r.2.w targetAbs })
      else (false, { st with w := RemoveSymlink st.w targetAbs })

/-- `removeSymlinks` (part_000). -/
def removeSymlinks (cwd srcDir tgtDir : Path) (confirm : Bool)
    (ignoreList : List String) (ans : Nat → Bool) (fuel : Nat) (w : FS) :
    EngineSt :=
  walkVisit cwd srcDir tgtDir ignoreList
    (removeHandler cwd srcDir tgtDir confirm ans) fuel (EngineSt.mk w 0) srcDir

end Lnkit

/-- Answer oracle that accepts every confirmation. -/
def ansTrue : Nat → Bool := fun _ => true

/-- Answer oracle that declines every confirmation. -/
def ansFalse : Nat → Bool := fun _ => false

/-- A decidable check that every cumulative extension of `done` by the
components of `rest` is an existing directory of `w`; `mkdirAllAux` is the
identity on the filesystem exactly when this holds. -/
def dirChainOk (w : FS) : Path → List String → Bool
  | _, [] => true
  | done, n :: rest =>
    match fsLookup w (done ++ [n]) with
    | some Obj.dir => dirChainOk w (done ++ [n]) rest
    | _ => false

/-- Well-formedness of the flat filesystem: every proper ancestor of every
entry is itself a directory entry (true of any tree an operating system can
present). -/
def wfFS (w : FS) : Bool := w.all (fun e => dirChainOk w [] e.1.dropLast)

/-- C1 counterexample world: `/T/f` is a symlink whose value `/R/..z` is a
strict descendant of the source root `/R` (a child whose name begins with
".."), and differs from the entry's source path `/R/f`. -/
def c1fs : FS :=
  [(["R"], Obj.dir), (["R", "f"], Obj.file 0), (["T"], Obj.dir),
   (["T", "f"], Obj.symlink (LinkVal.mk true ["R", "..z"]))]

/-- C1 witness world: `/T/f` is a symlink to `/S/g`, an ordinary strict
descendant of the source root `/S` other than the entry's source path. -/
def c1wfs : FS :=
  [(["S"], Obj.dir), (["S", "f"], Obj.file 0), (["S", "g"], Obj.file 1),
   (["T"], Obj.dir), (["T", "f"], Obj.symlink (LinkVal.mk true ["S", "g"]))]

/-- C2 world: source root `/R` with file `F` and directory `D` containing
file `G`; empty target directory `/T`. -/
def c2fs : FS :=
  [(["R"], Obj.dir), (["R", "F"], Obj.file 0), (["R", "D"], Obj.dir),
   (["R", "D", "G"], Obj.file 1), (["T"], Obj.dir)]

/-- C3 world: source `/S` with file `f`, empty target `/T`. -/
def c3fs : FS := [(["S"], Obj.dir), (["S", "f"], Obj.file 0), (["T"], Obj.dir)]

/-- C4 counterexample world: the target already holds a real file with
content identical to the source entry. -/
def c4fs : FS :=
  [(["S"], Obj.dir), (["S", "f"], Obj.file 5), (["T"], Obj.dir),
   (["T", "f"], Obj.file 5)]

/-- C4 witness world: one source file, empty target (every entry `Missing`). -/
def c4wfs : FS := [(["S"], Obj.dir), (["S", "f"], Obj.file 3), (["T"], Obj.dir)]

/-- C5 counterexample world: `/T/f` is a symlink pointing outside the
source root (`MislinkedExternal`). -/
def c5fs : FS :=
  [(["S"], Obj.dir), (["S", "f"], Obj.file 0), (["T"], Obj.dir),
   (["T", "f"], Obj.symlink (LinkVal.mk true ["X", "f"]))]

/-- C5 witness world: same shape as the C5 counterexample world. -/
def c5wfs : FS :=
  [(["S"], Obj.dir), (["S", "g"], Obj.file 0), (["T"], Obj.dir),
   (["T", "g"], Obj.symlink (LinkVal.mk true ["X", "g"]))]

/-- C6 witness world: the target holds a real file with content differing
from the source entry (`ExistsModified`). -/
def c6wfs : FS :=
  [(["S"], Obj.dir), (["S", "f"], Obj.file 0), (["T"], Obj.dir),
   (["T", "f"], Obj.file 1)]

/-- C7 world before linking: one source file, empty target. -/
def c7pre : FS := [(["S"], Obj.dir), (["S", "f"], Obj.file 0), (["T"], Obj.dir)]

/-- C7 world with a correct symlink in place. -/
def c7post : FS :=
  [(["S"], Obj.dir), (["S", "f"], Obj.file 0), (["T"], Obj.dir),
   (["T", "f"], Obj.symlink (LinkVal.mk true ["S", "f"]))]

/-- C8 counterexample world: a single root used as both source and target. -/
def c8fs : FS := [(["R"], Obj.dir), (["R", "f"], Obj.file 7)]

/-- C8 witness world: only the target root exists; the source is missing. -/
def c8wfs : FS := [(["T"], Obj.dir)]

/-- C10 witness world: a directory with one file in it. -/
def c10wfs : FS := [(["a"], Obj.dir), (["a", "b"], Obj.file 0)]

/-! ### Lemmas about the filesystem primitives -/

theorem fsLookup_removeOne (w : FS) (p q : Path) :
    fsLookup (fsRemoveOne w p) q = if q = p then none else fsLookup w q := by
  induction w with
  | nil => simp [fsRemoveOne, fsLookup]
  | cons e es ih =>
    simp only [fsRemoveOne]
    by_cases h1 : e.1 = p
    · rw [if_pos h1, ih]
      by_cases h2 : q = p
      · simp [h2]
      · have h3 : ¬(e.1 = q) := by
          rw [h1]; exact fun hh => h2 hh.symm
        simp [fsLookup, h2, h3]
    · rw [if_neg h1]
      simp only [fsLookup]
      by_cases h2 : e.1 = q
      · have h3 : ¬(q = p) := by
          rw [← h2]; exact h1
        simp [h2, h3]
      · simp [h2, ih]

theorem fsLookup_mem {w : FS} {k : Path} {o : Obj}
    (h : fsLookup w k = some o) : (k, o) ∈ w := by
  induction w with
  | nil => cases h
  | cons e es ih =>
    obtain ⟨k1, o1⟩ := e
    simp only [fsLookup] at h
    by_cases h1 : k1 = k
    · rw [if_pos h1] at h
      cases h
      subst h1
      exact List.mem_cons_self _ _
    · rw [if_neg h1] at h
      exact List.mem_cons_of_mem _ (ih h)

theorem fsLookup_isSome_of_mem {w : FS} {k : Path} {o : Obj}
    (h : (k, o) ∈ w) : (fsLookup w k).isSome := by
  induction w with
  | nil => cases h
  | cons e es ih =>
    simp only [fsLookup]
    by_cases h1 : e.1 = k
    · simp [h1]
    · rcases List.mem_cons.mp h with h2 | h2
      · rw [← h2] at h1
        simp at h1
      · simpa [h1] using ih h2

theorem childNameOf_eq_some {d k : Path} {n : String} :
    childNameOf d k = some n ↔ k = d ++ [n] := by
  constructor
  · intro h
    unfold childNameOf at h
    split at h
    case isTrue hc =>
      obtain ⟨hlen, htake⟩ := hc
      have hsplit : k.take d.length ++ k.drop d.length = k := List.take_append_drop _ _
      have hdl : (k.drop d.length).length = 1 := by
        rw [List.length_drop, hlen]
        omega
      obtain ⟨x, hx⟩ := List.length_eq_one.mp hdl
      have hk : k = d ++ [x] := by
        rw [← hsplit, htake, hx]
      rw [hk] at h
      rw [List.getLast?_concat] at h
      cases h
      exact hk
    case isFalse => cases h
  · rintro rfl
    unfold childNameOf
    have hc : (d ++ [n]).length = d.length + 1 ∧ (d ++ [n]).take d.length = d := by
      refine ⟨by simp, List.take_left d [n]⟩
    rw [if_pos hc]
    exact List.getLast?_concat _

theorem mem_childNames {w : FS} {d : Path} {n : String} :
    n ∈ childNames w d ↔ ∃ o, (d ++ [n], o) ∈ w := by
  unfold childNames
  rw [List.mem_filterMap]
  constructor
  · rintro ⟨e, he, hn⟩
    refine ⟨e.2, ?_⟩
    have := childNameOf_eq_some.mp hn
    rw [← this]
    exact he
  · rintro ⟨o, ho⟩
    exact ⟨(d ++ [n], o), ho, childNameOf_eq_some.mpr rfl⟩

theorem mem_insertName {a s : String} {l : List String} :
    a ∈ insertName s l ↔ a = s ∨ a ∈ l := by
  induction l with
  | nil => simp [insertName]
  | cons t ts ih =>
    simp only [insertName]
    split
    · rw [List.mem_cons, ih, List.mem_cons]
      tauto
    · simp [List.mem_cons]

theorem mem_sortNames {a : String} {l : List String} :
    a ∈ sortNames l ↔ a ∈ l := by
  induction l with
  | nil => simp [sortNames]
  | cons t ts ih =>
    show a ∈ insertName t (sortNames ts) ↔ _
    rw [mem_insertName, ih, List.mem_cons]

theorem walkNames_isSome {w : FS} {d : Path} {n : String}
    (h : n ∈ Main.walkNames w d) : (fsLookup w (d ++ [n])).isSome := by
  unfold Main.walkNames at h
  have h1 := (List.mem_filter.mp h).1
  obtain ⟨o, ho⟩ := mem_childNames.mp (mem_sortNames.mp h1)
  exact fsLookup_isSome_of_mem ho

theorem mkdirAllAux_of_chain {w : FS} : ∀ {done : Path} {rest : List String},
    dirChainOk w done rest = true → mkdirAllAux w done rest = some w := by
  intro done rest
  induction rest generalizing done with
  | nil => intro _; rfl
  | cons n ns ih =>
    intro h
    rw [dirChainOk] at h
    cases hl : fsLookup w (done ++ [n]) with
    | none => rw [hl] at h; cases h
    | some o =>
      rw [hl] at h
      cases o with
      | dir =>
        simp only [mkdirAllAux, hl]
        exact ih h
      | file d => cases h
      | symlink v => cases h

theorem dirChain_of_wf {w : FS} {k : Path} {o : Obj} (hwf : wfFS w = true)
    (h : fsLookup w k = some o) : dirChainOk w [] k.dropLast = true := by
  have hmem : (k, o) ∈ w := fsLookup_mem h
  exact List.all_eq_true.mp hwf _ hmem

theorem concat_ne_concat_of_ne {a b : Path} {x y : String} (h : a ≠ b) :
    a ++ [x] ≠ b ++ [y] := by
  intro hc
  apply h
  have := congrArg List.dropLast hc
  simpa using this

theorem concat_inj {a : Path} {x y : String} (h : a ++ [x] = a ++ [y]) :
    x = y := by
  have := List.append_cancel_left h
  simpa using this

/-! ### Lemmas about the classifier -/

theorem classify_congr {w w' : FS} (cwd srcDir tgtDir rel : Path)
    (ign : List String)
    (ht : fsLookup w' (tgtDir ++ rel) = fsLookup w (tgtDir ++ rel))
    (hs : fsLookup w' (srcDir ++ rel) = fsLookup w (srcDir ++ rel)) :
    determineTargetState w' cwd srcDir tgtDir rel ign
      = determineTargetState w cwd srcDir tgtDir rel ign := by
  simp only [determineTargetState, PathExists, IsSymlink, IsSymlinkPointingTo,
    readlink, CompareFileHashes, HashFile, ht, hs]

theorem classify_ignore_of_match {w : FS} {cwd srcDir tgtDir rel : Path}
    {ign : List String}
    (h : MatchesPatterns (baseName (srcDir ++ rel)) ign = true) :
    determineTargetState w cwd srcDir tgtDir rel ign = TargetState.Ignore := by
  simp only [determineTargetState]
  rw [if_pos h]

theorem classify_not_ignore {w : FS} {cwd srcDir tgtDir rel : Path}
    {ign : List String}
    (h : MatchesPatterns (baseName (srcDir ++ rel)) ign = false) :
    determineTargetState w cwd srcDir tgtDir rel ign ≠ TargetState.Ignore := by
  simp only [determineTargetState]
  rw [h]
  intro hcon
  simp only [Bool.false_eq_true, if_false] at hcon
  by_cases h2 : (!PathExists w (tgtDir ++ rel)) = true
  · rw [if_pos h2] at hcon; cases hcon
  · rw [if_neg h2] at hcon
    by_cases h3 : IsSymlink w (tgtDir ++ rel) = true
    · rw [if_pos h3] at hcon
      by_cases h4 : IsSymlinkPointingTo w cwd (tgtDir ++ rel) (srcDir ++ rel) = true
      · rw [if_pos h4] at hcon; cases hcon
      · rw [if_neg h4] at hcon
        split at hcon
        · split at hcon
          · cases hcon
          · cases hcon
        · cases hcon
    · rw [if_neg h3] at hcon
      by_cases h6 : CompareFileHashes w (srcDir ++ rel) (tgtDir ++ rel) = true
      · rw [if_pos h6] at hcon; cases hcon
      · rw [if_neg h6] at hcon; cases hcon

theorem classify_ignore_iff (w : FS) (cwd srcDir tgtDir rel : Path)
    (ign : List String) :
    determineTargetState w cwd srcDir tgtDir rel ign = TargetState.Ignore
      ↔ MatchesPatterns (baseName (srcDir ++ rel)) ign = true := by
  constructor
  · intro h
    by_contra hm
    have hm2 : MatchesPatterns (baseName (srcDir ++ rel)) ign = false := by
      cases hb : MatchesPatterns (baseName (srcDir ++ rel)) ign
      · rfl
      · exact absurd hb hm
    exact classify_not_ignore hm2 h
  · exact classify_ignore_of_match

theorem classify_symlink {w : FS} {cwd srcDir tgtDir rel : Path}
    {ign : List String}
    (h : determineTargetState w cwd srcDir tgtDir rel ign = TargetState.AlreadyLinked
       ∨ determineTargetState w cwd srcDir tgtDir rel ign = TargetState.MislinkedInternal
       ∨ determineTargetState w cwd srcDir tgtDir rel ign = TargetState.MislinkedExternal) :
    ∃ lv, fsLookup w (tgtDir ++ rel) = some (Obj.symlink lv) := by
  simp only [determineTargetState] at h
  rcases h with h | h | h <;>
  · by_cases h1 : MatchesPatterns (baseName (srcDir ++ rel)) ign = true
    · rw [if_pos h1] at h; cases h
    · rw [if_neg h1] at h
      by_cases h2 : (!PathExists w (tgtDir ++ rel)) = true
      · rw [if_pos h2] at h; cases h
      · rw [if_neg h2] at h
        by_cases h3 : IsSymlink w (tgtDir ++ rel) = true
        · unfold IsSymlink at h3
          cases hq : fsLookup w (tgtDir ++ rel) with
          | none => rw [hq] at h3; cases h3
          | some o =>
            rw [hq] at h3
            cases o with
            | symlink lv => exact ⟨lv, rfl⟩
            | dir => cases h3
            | file d => cases h3
        · rw [if_neg h3] at h
          by_cases h4 : CompareFileHashes w (srcDir ++ rel) (tgtDir ++ rel) = true
          · rw [if_pos h4] at h; cases h
          · rw [if_neg h4] at h; cases h

/-! ### Lemmas about `relComps` and `IsChildPath` -/

theorem relComps_append (b r : Path) : relComps b (b ++ r) = r := by
  induction b with
  | nil => simp [relComps]
  | cons x bs ih => simpa [relComps] using ih

theorem IsChildPath_iff (a b : Path) :
    IsChildPath a b = true
      ↔ ∃ c cs, a = b ++ c :: cs ∧ strHasPre c ".." = false := by
  induction b generalizing a with
  | nil =>
    cases a with
    | nil =>
      simp [IsChildPath, relComps]
    | cons c cs =>
      show (!(strHasPre c "..")) = true ↔ _
      constructor
      · intro h
        exact ⟨c, cs, rfl, by simpa using h⟩
      · rintro ⟨c1, cs1, heq, hpre⟩
        cases heq
        simpa using hpre
  | cons x bs ih =>
    cases a with
    | nil =>
      constructor
      · intro h
        exfalso
        have hrep : relComps (x :: bs) [] = ".." :: List.replicate bs.length ".." := by
          simp [relComps, List.replicate_succ]
        unfold IsChildPath at h
        rw [hrep] at h
        have hdd : strHasPre ".." ".." = true := by decide
        simp [hdd] at h
      · rintro ⟨c1, cs1, heq, hpre⟩
        cases heq
    | cons y ys =>
      by_cases hxy : x = y
      · subst hxy
        have hr : relComps (x :: bs) (x :: ys) = relComps bs ys := by
          simp [relComps]
        have hstep : IsChildPath (x :: ys) (x :: bs) = IsChildPath ys bs := by
          unfold IsChildPath
          rw [hr]
        rw [hstep, ih]
        constructor
        · rintro ⟨c1, cs1, heq, hpre⟩
          exact ⟨c1, cs1, by rw [heq]; rfl, hpre⟩
        · rintro ⟨c1, cs1, heq, hpre⟩
          refine ⟨c1, cs1, ?_, hpre⟩
          have h2 : ys = bs ++ c1 :: cs1 := by
            have h3 : x :: ys = x :: (bs ++ c1 :: cs1) := heq
            injection h3
          rw [h2]
      · constructor
        · intro h
          exfalso
          have hrep : relComps (x :: bs) (y :: ys)
              = ".." :: (List.replicate bs.length ".." ++ y :: ys) := by
            simp [relComps, hxy, List.replicate_succ]
          unfold IsChildPath at h
          rw [hrep] at h
          have hdd : strHasPre ".." ".." = true := by decide
          simp [hdd] at h
        · rintro ⟨c1, cs1, heq, hpre⟩
          exfalso
          have h3 : y :: ys = x :: (bs ++ c1 :: cs1) := heq
          injection h3 with h4 h5
          exact hxy h4.symm

theorem baseName_concat (d : Path) (n : String) : baseName (d ++ [n]) = n := by
  unfold baseName
  rw [List.getLast?_concat]

/-! ### Step and fold lemmas for the ghostow engines -/

theorem createStep_noop (cwd srcDir tgtDir : Path) (force createDirs : Bool)
    (ign : List String) (ans : Nat → Bool) (st : EngineSt) (n : String)
    (hchain : dirChainOk st.w [] srcDir = true)
    (hsrc : (fsLookup st.w (srcDir ++ [n])).isSome)
    (hst : determineTargetState st.w cwd srcDir tgtDir [n] ign = TargetState.Ignore
         ∨ determineTargetState st.w cwd srcDir tgtDir [n] ign = TargetState.Missing) :
    Main.createStep cwd srcDir tgtDir force createDirs ign ans st n = st := by
  rcases hst with h | h
  · simp [Main.createStep, h]
  · have hmk : mkdirAll st.w srcDir = some st.w := mkdirAllAux_of_chain hchain
    obtain ⟨o, ho⟩ := Option.isSome_iff_exists.mp hsrc
    simp only [Main.createStep, h]
    rw [if_neg (by simp)]
    unfold CreateSymlink
    cases createDirs
    · simp [ho]
    · simp [hmk, ho]

theorem createFold_id (cwd srcDir tgtDir : Path) (force createDirs : Bool)
    (ign : List String) (ans : Nat → Bool) (w : FS) :
    ∀ (ns : List String),
      (∀ n ∈ ns, (fsLookup w (srcDir ++ [n])).isSome) →
      dirChainOk w [] srcDir = true →
      (∀ n ∈ ns,
        determineTargetState w cwd srcDir tgtDir [n] ign = TargetState.Ignore ∨
        determineTargetState w cwd srcDir tgtDir [n] ign = TargetState.Missing) →
      ns.foldl (Main.createStep cwd srcDir tgtDir force createDirs ign ans)
        (EngineSt.mk w 0) = EngineSt.mk w 0 := by
  intro ns
  induction ns with
  | nil => intro _ _ _; rfl
  | cons n rest ih =>
    intro hsrc hchain hst
    rw [List.foldl_cons,
      createStep_noop cwd srcDir tgtDir force createDirs ign ans (EngineSt.mk w 0) n
        hchain (hsrc n (List.mem_cons_self _ _)) (hst n (List.mem_cons_self _ _))]
    exact ih (fun m hm => hsrc m (List.mem_cons_of_mem _ hm)) hchain
      (fun m hm => hst m (List.mem_cons_of_mem _ hm))

theorem removeStep_noop (cwd srcDir tgtDir : Path) (confirm : Bool)
    (ign : List String) (ans : Nat → Bool) (st : EngineSt) (n : String)
    (hst : determineTargetState st.w cwd srcDir tgtDir [n] ign = TargetState.Ignore
         ∨ determineTargetState st.w cwd srcDir tgtDir [n] ign = TargetState.Missing
         ∨ determineTargetState st.w cwd srcDir tgtDir [n] ign = TargetState.ExistsIdentical
         ∨ determineTargetState st.w cwd srcDir tgtDir [n] ign = TargetState.ExistsModified) :
    Main.removeStep cwd srcDir tgtDir confirm ign ans st n = st := by
  rcases hst with h | h | h | h <;> simp only [Main.removeStep, h]

theorem removeFold_id (cwd srcDir tgtDir : Path) (confirm : Bool)
    (ign : List String) (ans : Nat → Bool) (w : FS) :
    ∀ (ns : List String),
      (∀ n ∈ ns,
        determineTargetState w cwd srcDir tgtDir [n] ign = TargetState.Ignore ∨
        determineTargetState w cwd srcDir tgtDir [n] ign = TargetState.Missing ∨
        determineTargetState w cwd srcDir tgtDir [n] ign = TargetState.ExistsIdentical ∨
        determineTargetState w cwd srcDir tgtDir [n] ign = TargetState.ExistsModified) →
      ns.foldl (Main.removeStep cwd srcDir tgtDir confirm ign ans) (EngineSt.mk w 0)
        = EngineSt.mk w 0 := by
  intro ns
  induction ns with
  | nil => intro _; rfl
  | cons n rest ih =>
    intro hst
    rw [List.foldl_cons,
      removeStep_noop cwd srcDir tgtDir confirm ign ans (EngineSt.mk w 0) n
        (hst n (List.mem_cons_self _ _))]
    exact ih (fun m hm => hst m (List.mem_cons_of_mem _ hm))

theorem removeStep_frame (cwd srcDir tgtDir : Path) (confirm : Bool)
    (ign : List String) (ans : Nat → Bool) (st : EngineSt) (n : String)
    (p : Path) (hp : p ≠ tgtDir ++ [n]) :
    fsLookup (Main.removeStep cwd srcDir tgtDir confirm ign ans st n).w p
      = fsLookup st.w p := by
  simp only [Main.removeStep, askConfirm]
  split <;> try rfl
  all_goals split
  all_goals try split
  all_goals first
    | rfl
    | simp [fsLookup_removeOne, hp]

theorem removeFold_frame (cwd srcDir tgtDir : Path) (confirm : Bool)
    (ign : List String) (ans : Nat → Bool) :
    ∀ (ns : List String) (st : EngineSt) (p : Path),
      (∀ n ∈ ns, p ≠ tgtDir ++ [n]) →
      fsLookup ((ns.foldl (Main.removeStep cwd srcDir tgtDir confirm ign ans) st).w) p
        = fsLookup st.w p := by
  intro ns
  induction ns with
  | nil => intro st p _; rfl
  | cons n rest ih =>
    intro st p h
    rw [List.foldl_cons, ih _ p (fun m hm => h m (List.mem_cons_of_mem _ hm)),
      removeStep_frame cwd srcDir tgtDir confirm ign ans st n p (h n (List.mem_cons_self _ _))]

theorem removeStep_changes (cwd srcDir tgtDir : Path) (confirm : Bool)
    (ign : List String) (ans : Nat → Bool) (st : EngineSt) (n : String) (p : Path)
    (h : fsLookup (Main.removeStep cwd srcDir tgtDir confirm ign ans st n).w p
          ≠ fsLookup st.w p) :
    ∃ lv, fsLookup st.w p = some (Obj.symlink lv) := by
  by_cases hp : p = tgtDir ++ [n]
  · subst hp
    cases hcl : determineTargetState st.w cwd srcDir tgtDir [n] ign with
    | Ignore =>
      exfalso; apply h
      rw [removeStep_noop cwd srcDir tgtDir confirm ign ans st n (Or.inl hcl)]
    | Missing =>
      exfalso; apply h
      rw [removeStep_noop cwd srcDir tgtDir confirm ign ans st n (Or.inr (Or.inl hcl))]
    | ExistsIdentical =>
      exfalso; apply h
      rw [removeStep_noop cwd srcDir tgtDir confirm ign ans st n
        (Or.inr (Or.inr (Or.inl hcl)))]
    | ExistsModified =>
      exfalso; apply h
      rw [removeStep_noop cwd srcDir tgtDir confirm ign ans st n
        (Or.inr (Or.inr (Or.inr hcl)))]
    | AlreadyLinked => exact classify_symlink (Or.inl hcl)
    | MislinkedInternal => exact classify_symlink (Or.inr (Or.inl hcl))
    | MislinkedExternal => exact classify_symlink (Or.inr (Or.inr hcl))
  · exfalso
    exact h (removeStep_frame cwd srcDir tgtDir confirm ign ans st n p hp)

theorem removeFold_changes (cwd srcDir tgtDir : Path) (confirm : Bool)
    (ign : List String) (ans : Nat → Bool) :
    ∀ (ns : List String) (st : EngineSt) (p : Path),
      fsLookup ((ns.foldl (Main.removeStep cwd srcDir tgtDir confirm ign ans) st).w) p
        ≠ fsLookup st.w p →
      ∃ lv, fsLookup st.w p = some (Obj.symlink lv) := by
  intro ns
  induction ns with
  | nil => intro st p h; exact absurd rfl h
  | cons n rest ih =>
    intro st p h
    rw [List.foldl_cons] at h
    by_cases h1 : fsLookup (Main.removeStep cwd srcDir tgtDir confirm ign ans st n).w p
        = fsLookup st.w p
    · have h2 : fsLookup ((rest.foldl (Main.removeStep cwd srcDir tgtDir confirm ign ans)
          (Main.removeStep cwd srcDir tgtDir confirm ign ans st n)).w) p
          ≠ fsLookup (Main.removeStep cwd srcDir tgtDir confirm ign ans st n).w p := by
        rw [h1]; exact h
      obtain ⟨lv, hlv⟩ := ih _ p h2
      rw [h1] at hlv
      exact ⟨lv, hlv⟩
    · exact removeStep_changes cwd srcDir tgtDir confirm ign ans st n p h1

/-! ### Claim C1: symlink classification -/

/-- C1, counterexample: the entry is not ignored, its target is an existing
symlink, the resolved link value `/R/..z` is a descendant of the source root
`/R` and differs from the source path `/R/f`, so the claim requires
`MislinkedInternal`; the code classifies `MislinkedExternal`, because
`IsChildPath` tests `strings.HasPrefix(filepath.Rel(...), "..")`, which is
fooled by a child whose first component begins with "..". -/
theorem c1_counterexample :
    MatchesPatterns (baseName (["R"] ++ ["f"])) [] = false ∧
    fsLookup c1fs (["T"] ++ ["f"]) = some (Obj.symlink (LinkVal.mk true ["R", "..z"])) ∧
    resolveAgainst [] (LinkVal.mk true ["R", "..z"]) = ["R"] ++ ["..z"] ∧
    (["R"] ++ ["..z"] : Path) ≠ ["R"] ++ ["f"] ∧
    determineTargetState c1fs [] ["R"] ["T"] ["f"] [] ≠ TargetState.MislinkedInternal ∧
    determineTargetState c1fs [] ["R"] ["T"] ["f"] [] = TargetState.MislinkedExternal := by
  decide

/-- C1, amended: for a non-ignored entry whose target is an existing
symlink, classification is `AlreadyLinked` iff the link value resolved to an
absolute path equals the entry's source path; `MislinkedInternal` iff the
resolved path differs and is a strict descendant of the source root whose
first component below the root does not begin with ".." (the code's
`Rel`-plus-"HasPrefix .." test); and `MislinkedExternal` otherwise. -/
theorem c1_symlink_classification (w : FS) (cwd srcDir tgtDir rel : Path)
    (ign : List String) (v : LinkVal)
    (hig : MatchesPatterns (baseName (srcDir ++ rel)) ign = false)
    (hsym : fsLookup w (tgtDir ++ rel) = some (Obj.symlink v)) :
    (determineTargetState w cwd srcDir tgtDir rel ign = TargetState.AlreadyLinked
        ↔ resolveAgainst cwd v = srcDir ++ rel) ∧
    (determineTargetState w cwd srcDir tgtDir rel ign = TargetState.MislinkedInternal
        ↔ resolveAgainst cwd v ≠ srcDir ++ rel ∧
            ∃ c cs, resolveAgainst cwd v = srcDir ++ c :: cs ∧ strHasPre c ".." = false) ∧
    (determineTargetState w cwd srcDir tgtDir rel ign = TargetState.MislinkedExternal
        ↔ resolveAgainst cwd v ≠ srcDir ++ rel ∧
            ¬∃ c cs, resolveAgainst cwd v = srcDir ++ c :: cs ∧ strHasPre c ".." = false) := by
  have hpe : PathExists w (tgtDir ++ rel) = true := by
    unfold PathExists
    rw [hsym]
    rfl
  have hsl : IsSymlink w (tgtDir ++ rel) = true := by
    unfold IsSymlink
    rw [hsym]
  have hrl : readlink w (tgtDir ++ rel) = some v := by
    unfold readlink
    rw [hsym]
  have hd : determineTargetState w cwd srcDir tgtDir rel ign
      = (if resolveAgainst cwd v = srcDir ++ rel then TargetState.AlreadyLinked
         else if IsChildPath (resolveAgainst cwd v) srcDir then TargetState.MislinkedInternal
         else TargetState.MislinkedExternal) := by
    simp only [determineTargetState, IsSymlinkPointingTo, hig, hpe, hsl, hrl,
      Bool.false_eq_true, if_false, Bool.not_true, if_true, decide_eq_true_eq]
  rw [hd]
  by_cases heq : resolveAgainst cwd v = srcDir ++ rel
  · rw [if_pos heq]
    refine ⟨by simp [heq], ?_, ?_⟩
    · constructor
      · intro hcon; cases hcon
      · rintro ⟨hne, -⟩; exact absurd heq hne
    · constructor
      · intro hcon; cases hcon
      · rintro ⟨hne, -⟩; exact absurd heq hne
  · rw [if_neg heq]
    by_cases hch : IsChildPath (resolveAgainst cwd v) srcDir = true
    · rw [if_pos hch]
      have hEx := (IsChildPath_iff _ _).mp hch
      refine ⟨?_, ?_, ?_⟩
      · constructor
        · intro hcon; cases hcon
        · intro hcon; exact absurd hcon heq
      · exact ⟨fun _ => ⟨heq, hEx⟩, fun _ => rfl⟩
      · constructor
        · intro hcon; cases hcon
        · rintro ⟨-, hnEx⟩; exact absurd hEx hnEx
    · rw [if_neg hch]
      have hnEx : ¬∃ c cs, resolveAgainst cwd v = srcDir ++ c :: cs
          ∧ strHasPre c ".." = false := by
        intro hEx
        exact hch ((IsChildPath_iff _ _).mpr hEx)
      refine ⟨?_, ?_, ?_⟩
      · constructor
        · intro hcon; cases hcon
        · intro hcon; exact absurd hcon heq
      · constructor
        · intro hcon; cases hcon
        · rintro ⟨-, hEx⟩; exact absurd hEx hnEx
      · exact ⟨fun _ => ⟨heq, hnEx⟩, fun _ => rfl⟩

/-- C1, witness: `c1_symlink_classification` instantiated at a world where
`/T/f` points at `/S/g`, an ordinary internal mislink. -/
theorem c1_witness :
    MatchesPatterns (baseName (["S"] ++ ["f"])) [] = false ∧
    fsLookup c1wfs (["T"] ++ ["f"]) = some (Obj.symlink (LinkVal.mk true ["S", "g"])) ∧
    ((determineTargetState c1wfs [] ["S"] ["T"] ["f"] [] = TargetState.AlreadyLinked
        ↔ resolveAgainst [] (LinkVal.mk true ["S", "g"]) = ["S"] ++ ["f"]) ∧
     (determineTargetState c1wfs [] ["S"] ["T"] ["f"] [] = TargetState.MislinkedInternal
        ↔ resolveAgainst [] (LinkVal.mk true ["S", "g"]) ≠ ["S"] ++ ["f"] ∧
            ∃ c cs, resolveAgainst [] (LinkVal.mk true ["S", "g"]) = ["S"] ++ c :: cs
              ∧ strHasPre c ".." = false) ∧
     (determineTargetState c1wfs [] ["S"] ["T"] ["f"] [] = TargetState.MislinkedExternal
        ↔ resolveAgainst [] (LinkVal.mk true ["S", "g"]) ≠ ["S"] ++ ["f"] ∧
            ¬∃ c cs, resolveAgainst [] (LinkVal.mk true ["S", "g"]) = ["S"] ++ c :: cs
              ∧ strHasPre c ".." = false)) :=
  ⟨by decide, by decide,
    c1_symlink_classification c1wfs [] ["S"] ["T"] ["f"] [] (LinkVal.mk true ["S", "g"])
      (by decide) (by decide)⟩

/-! ### Claim C2: recursive/fold link semantics -/

/-- C2: running lnkit `link` with `recursive = true, fold = true` on the C2
world creates NO symlinks under `/T` at all — `T/F` and `T/D` stay missing.
Instead, because the handler re-joins the walker's absolute path onto the
source root and `CreateSymlink`'s first argument is where the link is
created, the run manufactures `/R/R` and places the symlinks `/R/R/F → /T/F`
and `/R/R/D → /T/D` inside the source tree.  The claim expects `T/F → R/F`
and `T/D → R/D`. -/
theorem c2_fold_semantics_bug :
    fsLookup (Lnkit.createSymlinks [] ["R"] ["T"] false true false true true [] ansFalse 8 c2fs).w
      ["T", "F"] = none ∧
    fsLookup (Lnkit.createSymlinks [] ["R"] ["T"] false true false true true [] ansFalse 8 c2fs).w
      ["T", "D"] = none ∧
    fsLookup (Lnkit.createSymlinks [] ["R"] ["T"] false true false true true [] ansFalse 8 c2fs).w
      ["R", "R", "F"] = some (Obj.symlink (LinkVal.mk true ["T", "F"])) ∧
    fsLookup (Lnkit.createSymlinks [] ["R"] ["T"] false true false true true [] ansFalse 8 c2fs).w
      ["R", "R", "D"] = some (Obj.symlink (LinkVal.mk true ["T", "D"])) := by
  decide

/-! ### Claim C3: idempotence of link -/

/-- C3: running ghostow `link` twice with `force = true, confirm = false`
leaves the filesystem unchanged both times, and after the second run the
entry still classifies `Missing`, not `AlreadyLinked`: `symlink` calls
`fileutil.CreateSymlink(sourceAbs, targetAbs, ...)`, whose first parameter
is the path the link is created at; `sourceAbs` always exists, so creation
always fails with "path already exists". -/
theorem c3_idempotence_bug :
    (Main.createSymlinks [] ["S"] ["T"] true true false [] ansTrue c3fs).w = c3fs ∧
    (Main.createSymlinks [] ["S"] ["T"] true true false [] ansTrue
      (Main.createSymlinks [] ["S"] ["T"] true true false [] ansTrue c3fs).w).w = c3fs ∧
    determineTargetState
      (Main.createSymlinks [] ["S"] ["T"] true true false [] ansTrue
        (Main.createSymlinks [] ["S"] ["T"] true true false [] ansTrue c3fs).w).w
      [] ["S"] ["T"] ["f"] [] = TargetState.Missing := by
  decide

/-! ### Claim C4: link/unlink round trip -/

/-- C4, counterexample: `link` then `unlink` does not restore the target
tree: the pre-existing identical file `/T/f` is deleted by `link`
(`ExistsIdentical` → unconditional `RemoveAll`) and never comes back, so a
real file is newly absent after the round trip. -/
theorem c4_counterexample :
    fsLookup c4fs ["T", "f"] = some (Obj.file 5) ∧
    fsLookup
      (Main.removeSymlinks [] ["S"] ["T"] false [] ansTrue
        (Main.createSymlinks [] ["S"] ["T"] false true false [] ansTrue c4fs).w).w
      ["T", "f"] = none := by
  decide

/-- C4, amended: `link` then `unlink` leaves the target tree exactly as it
was whenever every walked entry initially classifies `Ignore` or `Missing`
(in the current code both runs are then complete no-ops, since `symlink`
passes `CreateSymlink` its arguments swapped and the creation always
fails); entries whose target pre-exists are destroyed, not restored, as the
counterexample shows. -/
theorem c4_roundtrip (cwd srcDir tgtDir : Path)
    (force createDirs confirm confirm2 : Bool) (ign : List String)
    (ans ans2 : Nat → Bool) (w : FS)
    (hchain : dirChainOk w [] srcDir = true)
    (hmiss : ∀ n ∈ Main.walkNames w srcDir,
        determineTargetState w cwd srcDir tgtDir [n] ign = TargetState.Ignore ∨
        determineTargetState w cwd srcDir tgtDir [n] ign = TargetState.Missing) :
    (Main.removeSymlinks cwd srcDir tgtDir confirm2 ign ans2
        (Main.createSymlinks cwd srcDir tgtDir force createDirs confirm ign ans w).w).w
      = w := by
  have h1 : (Main.createSymlinks cwd srcDir tgtDir force createDirs confirm ign ans w).w
      = w := by
    unfold Main.createSymlinks
    rw [createFold_id cwd srcDir tgtDir force createDirs ign ans w _
      (fun n hn => walkNames_isSome hn) hchain hmiss]
  rw [h1]
  have h2 : Main.removeSymlinks cwd srcDir tgtDir confirm2 ign ans2 w = EngineSt.mk w 0 := by
    unfold Main.removeSymlinks
    exact removeFold_id cwd srcDir tgtDir confirm2 ign ans2 w _
      (fun n hn => (hmiss n hn).elim (fun h => Or.inl h) (fun h => Or.inr (Or.inl h)))
  rw [h2]

/-- C4, witness: the amended round trip applied to a world with one source
file and an empty target. -/
theorem c4_witness :
    dirChainOk c4wfs [] ["S"] = true ∧
    (∀ n ∈ Main.walkNames c4wfs ["S"],
        determineTargetState c4wfs [] ["S"] ["T"] [n] [] = TargetState.Ignore ∨
        determineTargetState c4wfs [] ["S"] ["T"] [n] [] = TargetState.Missing) ∧
    (Main.removeSymlinks [] ["S"] ["T"] false [] ansTrue
        (Main.createSymlinks [] ["S"] ["T"] false true false [] ansTrue c4wfs).w).w
      = c4wfs :=
  ⟨by decide, by decide,
    c4_roundtrip [] ["S"] ["T"] false true false false [] ansTrue ansTrue c4wfs
      (by decide) (by decide)⟩

/-! ### Claim C5: unlink confirmation for MislinkedExternal -/

/-- C5, counterexample: with `confirm = false`, ghostow `unlink` removes the
externally-mislinked symlink without requesting any confirmation (the
prompt counter stays 0 and the answer oracle declines everything), refuting
"confirmation is requested regardless of the confirm flag". -/
theorem c5_counterexample :
    determineTargetState c5fs [] ["S"] ["T"] ["f"] [] = TargetState.MislinkedExternal ∧
    fsLookup (Main.removeSymlinks [] ["S"] ["T"] false [] ansFalse c5fs).w ["T", "f"] = none ∧
    (Main.removeSymlinks [] ["S"] ["T"] false [] ansFalse c5fs).prompts = 0 := by
  decide

/-- C5, amended: for an entry classified `MislinkedExternal` the unlink
handler removes the symlink gated by confirmation only when the `confirm`
policy flag is true (one prompt, removal iff accepted); with
`confirm = false` it removes the symlink without requesting anything. -/
theorem c5_unlink_external_confirm (cwd srcDir tgtDir : Path) (ign : List String)
    (ans : Nat → Bool) (st : EngineSt) (n : String)
    (h : determineTargetState st.w cwd srcDir tgtDir [n] ign
          = TargetState.MislinkedExternal) :
    Main.removeStep cwd srcDir tgtDir false ign ans st n
        = { st with w := fsRemoveOne st.w (tgtDir ++ [n]) } ∧
    Main.removeStep cwd srcDir tgtDir true ign ans st n
        = (if ans st.prompts = true
            then { st with w := fsRemoveOne st.w (tgtDir ++ [n]),
                           prompts := st.prompts + 1 }
            else { st with prompts := st.prompts + 1 }) := by
  constructor
  · simp [Main.removeStep, askConfirm, h]
  · simp only [Main.removeStep, askConfirm, h]
    by_cases ha : ans st.prompts = true
    · simp [ha]
    · simp [ha]

/-- C5, witness: `c5_unlink_external_confirm` at the C5 witness world. -/
theorem c5_witness :
    determineTargetState c5wfs [] ["S"] ["T"] ["g"] [] = TargetState.MislinkedExternal ∧
    Main.removeStep [] ["S"] ["T"] false [] ansFalse (EngineSt.mk c5wfs 0) "g"
        = { EngineSt.mk c5wfs 0 with w := fsRemoveOne c5wfs (["T"] ++ ["g"]) } ∧
    Main.removeStep [] ["S"] ["T"] true [] ansFalse (EngineSt.mk c5wfs 0) "g"
        = (if ansFalse 0 = true
            then { EngineSt.mk c5wfs 0 with w := fsRemoveOne c5wfs (["T"] ++ ["g"]),
                                            prompts := 1 }
            else { EngineSt.mk c5wfs 0 with prompts := 1 }) :=
  ⟨by decide,
    (c5_unlink_external_confirm [] ["S"] ["T"] [] ansFalse (EngineSt.mk c5wfs 0) "g"
      (by decide)).1,
    (c5_unlink_external_confirm [] ["S"] ["T"] [] ansFalse (EngineSt.mk c5wfs 0) "g"
      (by decide)).2⟩

/-! ### Claim C6: unlink never touches non-symlink targets -/

/-- C6: during ghostow `unlink`, an entry whose target initially classifies
`Ignore`, `Missing`, `ExistsIdentical` or `ExistsModified` has the object at
its target path left completely unchanged, and more generally any path whose
lookup changes during `unlink` originally held a symlink — `unlink` never
modifies or removes a non-symlink target. -/
theorem c6_unlink_frame (cwd srcDir tgtDir : Path) (confirm : Bool)
    (ign : List String) (ans : Nat → Bool) (w : FS) (m : String)
    (hne : srcDir ≠ tgtDir)
    (hnd : (Main.walkNames w srcDir).Nodup)
    (hm : m ∈ Main.walkNames w srcDir)
    (hstate : determineTargetState w cwd srcDir tgtDir [m] ign = TargetState.Ignore ∨
        determineTargetState w cwd srcDir tgtDir [m] ign = TargetState.Missing ∨
        determineTargetState w cwd srcDir tgtDir [m] ign = TargetState.ExistsIdentical ∨
        determineTargetState w cwd srcDir tgtDir [m] ign = TargetState.ExistsModified) :
    fsLookup (Main.removeSymlinks cwd srcDir tgtDir confirm ign ans w).w (tgtDir ++ [m])
        = fsLookup w (tgtDir ++ [m]) ∧
    (∀ p, fsLookup (Main.removeSymlinks cwd srcDir tgtDir confirm ign ans w).w p
          ≠ fsLookup w p → ∃ lv, fsLookup w p = some (Obj.symlink lv)) := by
  constructor
  · obtain ⟨l1, l2, hsplit⟩ := List.append_of_mem hm
    have hnd2 : (l1 ++ m :: l2).Nodup := hsplit ▸ hnd
    have hml1 : m ∉ l1 := by
      intro hc
      exact List.disjoint_of_nodup_append hnd2 hc (List.mem_cons_self _ _)
    have hml2 : m ∉ l2 := by
      have h3 := List.Nodup.of_append_right hnd2
      exact (List.nodup_cons.mp h3).1
    unfold Main.removeSymlinks
    rw [hsplit, List.foldl_append, List.foldl_cons]
    have hfr1t : ∀ x ∈ l1, (tgtDir ++ [m] : Path) ≠ tgtDir ++ [x] := by
      intro x hx hc
      exact hml1 (concat_inj hc ▸ hx)
    have hfr1s : ∀ x ∈ l1, (srcDir ++ [m] : Path) ≠ tgtDir ++ [x] := by
      intro x hx
      exact concat_ne_concat_of_ne hne
    have hT : fsLookup ((l1.foldl (Main.removeStep cwd srcDir tgtDir confirm ign ans)
        (EngineSt.mk w 0)).w) (tgtDir ++ [m]) = fsLookup w (tgtDir ++ [m]) :=
      removeFold_frame cwd srcDir tgtDir confirm ign ans l1 (EngineSt.mk w 0)
        (tgtDir ++ [m]) hfr1t
    have hS : fsLookup ((l1.foldl (Main.removeStep cwd srcDir tgtDir confirm ign ans)
        (EngineSt.mk w 0)).w) (srcDir ++ [m]) = fsLookup w (srcDir ++ [m]) :=
      removeFold_frame cwd srcDir tgtDir confirm ign ans l1 (EngineSt.mk w 0)
        (srcDir ++ [m]) hfr1s
    have hcl : determineTargetState
        ((l1.foldl (Main.removeStep cwd srcDir tgtDir confirm ign ans)
          (EngineSt.mk w 0)).w) cwd srcDir tgtDir [m] ign
        = determineTargetState w cwd srcDir tgtDir [m] ign :=
      classify_congr cwd srcDir tgtDir [m] ign hT hS
    have hnoop : Main.removeStep cwd srcDir tgtDir confirm ign ans
        (l1.foldl (Main.removeStep cwd srcDir tgtDir confirm ign ans) (EngineSt.mk w 0)) m
        = l1.foldl (Main.removeStep cwd srcDir tgtDir confirm ign ans) (EngineSt.mk w 0) := by
      apply removeStep_noop
      rw [hcl]
      exact hstate
    rw [removeFold_frame cwd srcDir tgtDir confirm ign ans l2 _ (tgtDir ++ [m])
      (fun x hx hc => hml2 (concat_inj hc ▸ hx)), hnoop, hT]
  · intro p hp
    unfold Main.removeSymlinks at hp
    exact removeFold_changes cwd srcDir tgtDir confirm ign ans
      (Main.walkNames w srcDir) (EngineSt.mk w 0) p hp

/-- C6, witness: `c6_unlink_frame` at a world whose target entry is a
modified real file; the file survives `unlink` untouched. -/
theorem c6_witness :
    (["S"] : Path) ≠ ["T"] ∧
    (Main.walkNames c6wfs ["S"]).Nodup ∧
    "f" ∈ Main.walkNames c6wfs ["S"] ∧
    determineTargetState c6wfs [] ["S"] ["T"] ["f"] [] = TargetState.ExistsModified ∧
    fsLookup (Main.removeSymlinks [] ["S"] ["T"] true [] ansTrue c6wfs).w (["T"] ++ ["f"])
      = fsLookup c6wfs (["T"] ++ ["f"]) :=
  ⟨by decide, by decide, by decide, by decide,
    (c6_unlink_frame [] ["S"] ["T"] true [] ansTrue c6wfs "f" (by decide) (by decide)
      (by decide) (Or.inr (Or.inr (Or.inr (by decide))))).1⟩

/-! ### Claim C7: stats counters -/

/-- C7: the pre-link scenario does report `noTarget = 1, unlinked = 1,
linkedFiles = 0`; but for an `AlreadyLinked` FILE entry the code increments
BOTH `linkedFiles` and `linkedDirs` (`gatherStats` case `AlreadyLinked` does
`LinkedDirs++; LinkedFiles++`), so `linkedDirs = 1` where the claim demands
0; and after running `link` a subsequent stats still reports
`linkedFiles = 0` (nothing was created, `CreateSymlink` argument order). -/
theorem c7_stats_bug :
    Main.gatherStats [] ["S"] ["T"] [] c7pre = ⟨0, 0, 1, 0, 0, 0, 1, 0⟩ ∧
    isDirEntry c7post ["S", "f"] = false ∧
    Main.gatherStats [] ["S"] ["T"] [] c7post = ⟨1, 1, 0, 0, 0, 0, 0, 0⟩ ∧
    (Main.gatherStats [] ["S"] ["T"] []
      (Main.createSymlinks [] ["S"] ["T"] false true false [] ansTrue c7pre).w).linkedFiles
      = 0 := by
  decide

/-! ### Claim C8: root validation -/

/-- C8, counterexample: `main` performs no source == target check, so with
equal roots validation passes and `link` mutates the tree: the regular file
`/R/f` classifies `ExistsIdentical` against itself, is deleted, and is
replaced by a self-pointing symlink. -/
theorem c8_counterexample :
    Main.validateRoots c8fs ["R"] ["R"] = true ∧
    fsLookup c8fs ["R", "f"] = some (Obj.file 7) ∧
    fsLookup (Main.runMain Main.Cmd.link c8fs [] ["R"] ["R"] false true false [] ansTrue)
      ["R", "f"] = some (Obj.symlink (LinkVal.mk true ["R", "f"])) := by
  decide

/-- C8, amended: if either root is missing or not a directory, either root
is a symlink, or the target root is a strict descendant of the source root
(first component below the root not beginning with ".."), then every
command returns before performing any filesystem mutation.  Equal roots are
NOT rejected, as the counterexample shows. -/
theorem c8_validation (cmd : Main.Cmd) (w : FS) (cwd srcDir tgtDir : Path)
    (force createDirs confirm : Bool) (ign : List String) (ans : Nat → Bool)
    (h : IsDir w srcDir = false ∨ IsDir w tgtDir = false ∨
        IsSymlink w srcDir = true ∨ IsSymlink w tgtDir = true ∨
        ∃ c cs, tgtDir = srcDir ++ c :: cs ∧ strHasPre c ".." = false) :
    Main.runMain cmd w cwd srcDir tgtDir force createDirs confirm ign ans = w := by
  have hv : Main.validateRoots w srcDir tgtDir = false := by
    unfold Main.validateRoots
    rcases h with h | h | h | h | h
    · simp [h]
    · simp [h]
    · simp [h]
    · simp [h]
    · have hc : IsChildPath tgtDir srcDir = true := (IsChildPath_iff _ _).mpr h
      simp [hc]
  unfold Main.runMain
  rw [hv]
  rfl

/-- C8, witness: a missing source root makes every command a no-op. -/
theorem c8_witness :
    IsDir c8wfs ["S"] = false ∧
    Main.runMain Main.Cmd.link c8wfs [] ["S"] ["T"] false true false [] ansTrue = c8wfs :=
  ⟨by decide,
    c8_validation Main.Cmd.link c8wfs [] ["S"] ["T"] false true false [] ansTrue
      (Or.inl (by decide))⟩

/-! ### Claim C9: ignore correctness -/

/-- C9: (i) classification yields `Ignore` exactly when the entry's base
name matches an ignore pattern; (ii) the ghostow link handler is a complete
no-op on a matched entry (no symlink created); (iii) the ghostow unlink
handler is a complete no-op on a matched entry (no symlink removed);
(iv) `statsStep` increments `ignored` exactly for matched entries and for
nothing else; (v) the recursive walker returns straight after the handler
on an ignored entry — it never descends into an ignored directory, so the
whole subtree is excluded from the walk. -/
theorem c9_ignore_correctness (cwd srcDir tgtDir : Path) (ign : List String) :
    (∀ (w : FS) (rel : Path),
        determineTargetState w cwd srcDir tgtDir rel ign = TargetState.Ignore
          ↔ MatchesPatterns (baseName (srcDir ++ rel)) ign = true) ∧
    (∀ (force createDirs : Bool) (ans : Nat → Bool) (st : EngineSt) (n : String),
        MatchesPatterns n ign = true →
        Main.createStep cwd srcDir tgtDir force createDirs ign ans st n = st) ∧
    (∀ (confirm : Bool) (ans : Nat → Bool) (st : EngineSt) (n : String),
        MatchesPatterns n ign = true →
        Main.removeStep cwd srcDir tgtDir confirm ign ans st n = st) ∧
    (∀ (w : FS) (s : Main.Stats) (n : String),
        (Main.statsStep cwd srcDir tgtDir ign w s n).ignored
          = s.ignored + (if MatchesPatterns n ign = true then 1 else 0)) ∧
    (∀ (hstep : Lnkit.Handler) (fuel : Nat) (st : EngineSt) (r : Path),
        r ≠ [] →
        MatchesPatterns (baseName (srcDir ++ r)) ign = true →
        IsSymlink st.w (srcDir ++ r) = false →
        Lnkit.walkVisit cwd srcDir tgtDir ign hstep (fuel + 1) st (srcDir ++ r)
          = (hstep (srcDir ++ r) (tgtDir ++ r) TargetState.Ignore st).2) := by
  refine ⟨fun w rel => classify_ignore_iff w cwd srcDir tgtDir rel ign, ?_, ?_, ?_, ?_⟩
  · intro force createDirs ans st n hmatch
    have hcl : determineTargetState st.w cwd srcDir tgtDir [n] ign = TargetState.Ignore :=
      classify_ignore_of_match (by rwa [baseName_concat])
    simp [Main.createStep, hcl]
  · intro confirm ans st n hmatch
    have hcl : determineTargetState st.w cwd srcDir tgtDir [n] ign = TargetState.Ignore :=
      classify_ignore_of_match (by rwa [baseName_concat])
    simp [Main.removeStep, hcl]
  · intro w s n
    cases hb : MatchesPatterns n ign with
    | true =>
      have hcl : determineTargetState w cwd srcDir tgtDir [n] ign = TargetState.Ignore :=
        classify_ignore_of_match (by rwa [baseName_concat])
      simp [Main.statsStep, hcl]
    | false =>
      cases hcl : determineTargetState w cwd srcDir tgtDir [n] ign with
      | Ignore =>
        exfalso
        have := (classify_ignore_iff w cwd srcDir tgtDir [n] ign).mp hcl
        rw [baseName_concat] at this
        rw [this] at hb
        cases hb
      | AlreadyLinked => simp [Main.statsStep, hcl]
      | Missing => simp [Main.statsStep, hcl]
      | MislinkedInternal => simp [Main.statsStep, hcl]
      | MislinkedExternal => simp [Main.statsStep, hcl]
      | ExistsIdentical => simp [Main.statsStep, hcl]
      | ExistsModified => simp [Main.statsStep, hcl]
  · intro hstep fuel st r hr hmatch hsym
    have hner : srcDir ++ r ≠ srcDir := by
      intro hc
      apply hr
      have hlen := congrArg List.length hc
      simp at hlen
      exact hlen
    have hdrop : (srcDir ++ r).drop srcDir.length = r := List.drop_left _ _
    have hcl : determineTargetState st.w cwd srcDir tgtDir r ign = TargetState.Ignore :=
      classify_ignore_of_match hmatch
    simp [Lnkit.walkVisit, hner, hsym, hdrop, hcl]

/-- C9, witness: each ignore-correctness conjunct at a concrete instance. -/
theorem c9_witness :
    MatchesPatterns "x" ["x"] = true ∧
    ((["x"] : Path) ≠ []) ∧
    IsSymlink ([] : FS) (["S"] ++ ["x"]) = false ∧
    Main.createStep [] ["S"] ["T"] false true ["x"] ansTrue (EngineSt.mk [] 0) "x"
      = EngineSt.mk [] 0 ∧
    Main.removeStep [] ["S"] ["T"] false ["x"] ansTrue (EngineSt.mk [] 0) "x"
      = EngineSt.mk [] 0 ∧
    (Main.statsStep [] ["S"] ["T"] ["x"] [] Main.Stats.zero "x").ignored
      = Main.Stats.zero.ignored + (if MatchesPatterns "x" ["x"] = true then 1 else 0) ∧
    Lnkit.walkVisit [] ["S"] ["T"] ["x"] (Lnkit.removeHandler [] ["S"] ["T"] false ansTrue)
        (2 + 1) (EngineSt.mk [] 0) (["S"] ++ ["x"])
      = (Lnkit.removeHandler [] ["S"] ["T"] false ansTrue (["S"] ++ ["x"]) (["T"] ++ ["x"])
          TargetState.Ignore (EngineSt.mk [] 0)).2 :=
  ⟨by decide, by decide, by decide,
    (c9_ignore_correctness [] ["S"] ["T"] ["x"]).2.1 false true ansTrue
      (EngineSt.mk [] 0) "x" (by decide),
    (c9_ignore_correctness [] ["S"] ["T"] ["x"]).2.2.1 false ansTrue
      (EngineSt.mk [] 0) "x" (by decide),
    (c9_ignore_correctness [] ["S"] ["T"] ["x"]).2.2.2.1 [] Main.Stats.zero "x",
    (c9_ignore_correctness [] ["S"] ["T"] ["x"]).2.2.2.2
      (Lnkit.removeHandler [] ["S"] ["T"] false ansTrue) 2 (EngineSt.mk [] 0) ["x"]
      (by decide) (by decide) (by decide)⟩

/-! ### Claim C10: CreateSymlink never overwrites -/

/-- C10: if anything already exists at the link path, `CreateSymlink`
returns an error and leaves a well-formed filesystem unchanged — every
replacement the engine performs therefore requires an explicit prior
removal. -/
theorem c10_create_symlink_no_overwrite (w : FS) (linkPath targetPath : Path)
    (createDirs : Bool) (o : Obj) (hwf : wfFS w = true)
    (hex : fsLookup w linkPath = some o) :
    CreateSymlink w linkPath targetPath createDirs = (w, false) := by
  have hchain := dirChain_of_wf hwf hex
  have hmk : mkdirAll w linkPath.dropLast = some w := mkdirAllAux_of_chain hchain
  unfold CreateSymlink
  cases createDirs
  · simp [hex]
  · simp [hmk, hex]

/-- C10, witness: `CreateSymlink` refuses to overwrite the existing file
`/a/b` and leaves the filesystem unchanged. -/
theorem c10_witness :
    wfFS c10wfs = true ∧
    fsLookup c10wfs ["a", "b"] = some (Obj.file 0) ∧
    CreateSymlink c10wfs ["a", "b"] ["t"] true = (c10wfs, false) :=
  ⟨by decide, by decide,
    c10_create_symlink_no_overwrite c10wfs ["a", "b"] ["t"] true (Obj.file 0)
      (by decide) (by decide)⟩

end Ghostow
